import Mathlib

/-!
Shallow embedding of the `pid-ctrl` crate (src/lib.rs).

The crate is generic over a numeric type `T : FloatCore`.  We model the
non-NaN float domain as the extended rationals with an explicit NaN element:
`F.nan`, `F.negInf`, `F.fin q` (a finite value, modelled exactly as a
rational, so arithmetic on finite values is exact) and `F.posInf`.
Arithmetic and comparison follow IEEE-754 / `num_traits::FloatCore`
semantics: comparisons involving NaN are false, `min`/`max` ignore a NaN
operand (as in the `FloatCore` provided methods), indeterminate forms
(inf - inf, 0 * inf, inf / inf, 0 / 0) produce NaN, and NaN propagates
through every arithmetic operation.  The model has a single zero (the
signed-zero distinction of IEEE-754 is collapsed; no behaviour described
in the spec depends on the sign of zero).  `F.epsilon` models the
`T::epsilon()` constant, instantiated at f64's machine epsilon 2^-52;
nothing below depends on its exact magnitude, only on its being a small
positive finite value.

Rust's `&mut self` methods become pure functions returning the updated
structure (paired with the returned value where the method returns one);
`Result<_, PidError>` becomes `Except PidError _`.
-/

namespace Pid

/-- The numeric domain: NaN, minus infinity, exact finite values, plus infinity. -/
inductive F where
  | nan : F
  | negInf : F
  | fin : ℚ → F
  | posInf : F
deriving DecidableEq, Repr

namespace F

/-- Rust `a <= b` via `PartialOrd` on floats: false whenever NaN is involved. -/
def ble : F → F → Bool
  | nan, _ => false
  | _, nan => false
  | negInf, _ => true
  | _, negInf => false
  | _, posInf => true
  | posInf, _ => false
  | fin a, fin b => decide (a ≤ b)

/-- Rust `a < b` via `PartialOrd` on floats: false whenever NaN is involved. -/
def blt : F → F → Bool
  | nan, _ => false
  | _, nan => false
  | _, negInf => false
  | negInf, _ => true
  | posInf, _ => false
  | _, posInf => true
  | fin a, fin b => decide (a < b)

/-- Rust `a >= b`, which for floats holds iff `b <= a`. -/
def bge (a b : F) : Bool := ble b a

/-- The `FloatCore::min` provided method: a NaN operand yields the other
operand, otherwise `if self < other { self } else { other }`. -/
def min (a b : F) : F :=
  if a = nan then b
  else if b = nan then a
  else if blt a b then a else b

/-- The `FloatCore::max` provided method: a NaN operand yields the other
operand, otherwise `if self > other { self } else { other }`. -/
def max (a b : F) : F :=
  if a = nan then b
  else if b = nan then a
  else if blt b a then a else b

/-- IEEE negation. -/
def neg : F → F
  | nan => nan
  | negInf => posInf
  | posInf => negInf
  | fin q => fin (-q)

/-- IEEE absolute value. -/
def abs : F → F
  | nan => nan
  | negInf => posInf
  | posInf => posInf
  | fin q => fin |q|

/-- IEEE addition; `inf + (-inf)` is NaN. -/
def add : F → F → F
  | nan, _ => nan
  | _, nan => nan
  | posInf, negInf => nan
  | negInf, posInf => nan
  | posInf, _ => posInf
  | _, posInf => posInf
  | negInf, _ => negInf
  | _, negInf => negInf
  | fin a, fin b => fin (a + b)

/-- IEEE subtraction, as addition of the negation. -/
def sub (a b : F) : F := add a (neg b)

/-- IEEE multiplication; `0 * inf` is NaN. -/
def mul : F → F → F
  | nan, _ => nan
  | _, nan => nan
  | posInf, posInf => posInf
  | posInf, negInf => negInf
  | negInf, posInf => negInf
  | negInf, negInf => posInf
  | posInf, fin b => if b = 0 then nan else if 0 < b then posInf else negInf
  | fin a, posInf => if a = 0 then nan else if 0 < a then posInf else negInf
  | negInf, fin b => if b = 0 then nan else if 0 < b then negInf else posInf
  | fin a, negInf => if a = 0 then nan else if 0 < a then negInf else posInf
  | fin a, fin b => fin (a * b)

/-- IEEE division; `inf / inf` and `0 / 0` are NaN, a nonzero finite value
divided by zero gives a signed infinity (zero is treated as +0), and a
finite value divided by an infinity gives zero. -/
def div : F → F → F
  | nan, _ => nan
  | _, nan => nan
  | posInf, posInf => nan
  | posInf, negInf => nan
  | negInf, posInf => nan
  | negInf, negInf => nan
  | posInf, fin b => if 0 ≤ b then posInf else negInf
  | negInf, fin b => if 0 ≤ b then negInf else posInf
  | fin _, posInf => fin 0
  | fin _, negInf => fin 0
  | fin a, fin b =>
      if b = 0 then (if a = 0 then nan else if 0 < a then posInf else negInf)
      else fin (a / b)

/-- The `T::zero()` constant. -/
def zero : F := fin 0

/-- The `T::epsilon()` constant, modelled at f64's machine epsilon 2^-52. -/
def epsilon : F := fin (1 / 4503599627370496)

/-- The `T::infinity()` constant. -/
def infinity : F := posInf

/-- The `T::neg_infinity()` constant. -/
def neg_infinity : F := negInf

end F

/-- The crate's single error kind (`PidError::LimitOutBound`). -/
inductive PidError where
  | LimitOutBound : PidError
deriving DecidableEq, Repr

/-- `Limits<T>`: a clamp range with fields `lower` and `upper`. -/
structure Limits where
  lower : F
  upper : F
deriving DecidableEq, Repr

namespace Limits

/-- `Limits::new()`: the widest range, negative to positive infinity. -/
def new : Limits := ⟨F.negInf, F.posInf⟩

/-- `Limits::clamp(val)`: `val.min(self.upper).max(self.lower)`. -/
def clamp (l : Limits) (val : F) : F :=
  F.max (F.min val l.upper) l.lower

/-- `Limits::set_limit(val)`: `lower = -val.abs()`, `upper = val.abs()`. -/
def set_limit (l : Limits) (val : F) : Limits :=
  { l with lower := F.neg (F.abs val), upper := F.abs val }

/-- `Limits::try_set_upper(val)`: sets `upper = val` when `lower <= val`,
otherwise fails with `LimitOutBound` (the caller's value is untouched). -/
def try_set_upper (l : Limits) (val : F) : Except PidError Limits :=
  if F.ble l.lower val then Except.ok { l with upper := val }
  else Except.error PidError.LimitOutBound

/-- `Limits::try_set_lower(val)`: sets `lower = val` when `upper >= val`,
otherwise fails with `LimitOutBound` (the caller's value is untouched). -/
def try_set_lower (l : Limits) (val : F) : Except PidError Limits :=
  if F.bge l.upper val then Except.ok { l with lower := val }
  else Except.error PidError.LimitOutBound

end Limits

/-- `KPTerm<T>`: proportional term, a scale and limits. -/
structure KPTerm where
  limits : Limits
  scale : F
deriving DecidableEq, Repr

namespace KPTerm

/-- `KPTerm::new()` / `KPTerm::default()`: default limits, zero scale. -/
def new : KPTerm := ⟨Limits.new, F.zero⟩

/-- `KPTerm::set_scale(val)`. -/
def set_scale (t : KPTerm) (val : F) : KPTerm := { t with scale := val }

/-- `KPTerm::step(offset)`: `limits.clamp(scale * offset)`; takes `&self`,
mutating nothing. -/
def step (t : KPTerm) (offset : F) : F :=
  t.limits.clamp (F.mul t.scale offset)

end KPTerm

/-- `KITerm<T>`: integral term, a scale, limits and the running accumulator. -/
structure KITerm where
  limits : Limits
  scale : F
  accumulate : F
deriving DecidableEq, Repr

namespace KITerm

/-- `KITerm::new()` / `KITerm::default()`: default limits, zero scale and
accumulator. -/
def new : KITerm := ⟨Limits.new, F.zero, F.zero⟩

/-- `KITerm::set_scale(val)`. -/
def set_scale (t : KITerm) (val : F) : KITerm := { t with scale := val }

/-- `KITerm::step(offset, tdelta)`: clamps
`scale * offset * tdelta + accumulate`, stores the clamped value back into
`accumulate`, and returns it (returned value second). -/
def step (t : KITerm) (offset tdelta : F) : KITerm × F :=
  let i := t.limits.clamp (F.add (F.mul (F.mul t.scale offset) tdelta) t.accumulate)
  ({ t with accumulate := i }, i)

/-- The list of integral outputs produced by a sequence of
`step(offset, tdelta)` calls, threading the term state. -/
def runOutputs (t : KITerm) : List (F × F) → List F
  | [] => []
  | (o, td) :: rest => (t.step o td).2 :: ((t.step o td).1.runOutputs rest)

end KITerm

/-- `KDTerm<T>`: derivative term, a scale, limits and the previous
measurement. -/
structure KDTerm where
  limits : Limits
  scale : F
  prev_measurement : F
deriving DecidableEq, Repr

namespace KDTerm

/-- `KDTerm::new()` / `KDTerm::default()`: default limits, zero scale and
previous measurement. -/
def new : KDTerm := ⟨Limits.new, F.zero, F.zero⟩

/-- `KDTerm::set_scale(val)`. -/
def set_scale (t : KDTerm) (val : F) : KDTerm := { t with scale := val }

/-- `KDTerm::step(measurement, tdelta)`: clamps
`scale * (prev_measurement - measurement) / tdelta`, updates
`prev_measurement = measurement`, and returns the clamped value
(returned value second). -/
def step (t : KDTerm) (measurement tdelta : F) : KDTerm × F :=
  let d := t.limits.clamp (F.div (F.mul t.scale (F.sub t.prev_measurement measurement)) tdelta)
  ({ t with prev_measurement := measurement }, d)

end KDTerm

/-- `PidIn<T>`: a step's input, `measurement` and `tdelta`. -/
structure PidIn where
  measurement : F
  tdelta : F
deriving DecidableEq, Repr

namespace PidIn

/-- `PidIn::new(measurement, tdelta)`: stores the measurement unchanged and
`tdelta.min(T::infinity()).max(T::epsilon())`.  The structure has no
mutating operation: an input is immutable once constructed. -/
def new (measurement tdelta : F) : PidIn :=
  ⟨measurement, F.max (F.min tdelta F.infinity) F.epsilon⟩

end PidIn

/-- `PidOut<T>`: a step's output, the three term contributions and the
clamped total. -/
structure PidOut where
  p : F
  i : F
  d : F
  out : F
deriving DecidableEq, Repr

namespace PidOut

/-- `PidOut::new(p, i, d, out)`: a plain aggregate with no validation. -/
def new (p i d out : F) : PidOut := ⟨p, i, d, out⟩

end PidOut

/-- `PidCtrl<T>`: the controller, one term of each kind, overall limits and
the setpoint. -/
structure PidCtrl where
  kp : KPTerm
  ki : KITerm
  kd : KDTerm
  limits : Limits
  setpoint : F
deriving DecidableEq, Repr

namespace PidCtrl

/-- `PidCtrl::new()` / `PidCtrl::default()`: all fields default. -/
def new : PidCtrl := ⟨KPTerm.new, KITerm.new, KDTerm.new, Limits.new, F.zero⟩

/-- `PidCtrl::new_with_pid(p, i, d)`: default limits everywhere, the three
scales given, zero accumulator, previous measurement and setpoint. -/
def new_with_pid (p i d : F) : PidCtrl :=
  { kp := ⟨Limits.new, p⟩
  , ki := ⟨Limits.new, i, F.zero⟩
  , kd := ⟨Limits.new, d, F.zero⟩
  , limits := Limits.new
  , setpoint := F.zero }

/-- `PidCtrl::init(setpoint, prev_measurement)`: sets the setpoint and seeds
the derivative term's previous measurement. -/
def init (c : PidCtrl) (setpoint prev_measurement : F) : PidCtrl :=
  { c with setpoint := setpoint, kd := { c.kd with prev_measurement := prev_measurement } }

/-- `PidCtrl::step(input)`: `offset = setpoint - input.measurement`; then
`p = kp.step(offset)`, `i = ki.step(offset, input.tdelta)`,
`d = kd.step(input.measurement, input.tdelta)` in that order, and the
output is `PidOut::new(p, i, d, limits.clamp(p + i + d))` (updated
controller first, output second). -/
def step (c : PidCtrl) (input : PidIn) : PidCtrl × PidOut :=
  let offset := F.sub c.setpoint input.measurement
  let p := c.kp.step offset
  let i := c.ki.step offset input.tdelta
  let d := c.kd.step input.measurement input.tdelta
  ({ c with ki := i.1, kd := d.1 },
   PidOut.new p i.2 d.2 (c.limits.clamp (F.add (F.add p i.2) d.2)))

end PidCtrl

/-!
The repo example test mutates the controller between steps; the states and
step results of that scenario, threaded explicitly.
-/

/-- The scenario controller: gains p=3, i=2, d=1, then `init(5, 0)`. -/
def demo0 : PidCtrl := (PidCtrl.new_with_pid (F.fin 3) (F.fin 2) (F.fin 1)).init (F.fin 5) (F.fin 0)

/-- First step: measurement 0, tdelta 1. -/
def demo1 : PidCtrl × PidOut := demo0.step (PidIn.new (F.fin 0) (F.fin 1))

/-- The controller after changing the proportional scale to 4. -/
def demo1s : PidCtrl := { demo1.1 with kp := demo1.1.kp.set_scale (F.fin 4) }

/-- Second step: measurement 0, tdelta 1. -/
def demo2 : PidCtrl × PidOut := demo1s.step (PidIn.new (F.fin 0) (F.fin 1))

/-- The controller after `kp.limits.set_limit(10)`. -/
def demo2s : PidCtrl := { demo2.1 with kp := { demo2.1.kp with limits := demo2.1.kp.limits.set_limit (F.fin 10) } }

/-- Third step: measurement 0, tdelta 1. -/
def demo3 : PidCtrl × PidOut := demo2s.step (PidIn.new (F.fin 0) (F.fin 1))

/-- Fourth step: measurement 0, tdelta 1/2. -/
def demo4 : PidCtrl × PidOut := demo3.1.step (PidIn.new (F.fin 0) (F.fin (1 / 2)))

/-- The controller after `ki.limits.try_set_upper(28)` (the successful
result of that call; the theorem below checks it is indeed `ok`). -/
def demo4s : PidCtrl := { demo4.1 with ki := { demo4.1.ki with limits := ⟨demo4.1.ki.limits.lower, F.fin 28⟩ } }

/-- Fifth step: measurement 0, tdelta 1/2. -/
def demo5 : PidCtrl × PidOut := demo4s.step (PidIn.new (F.fin 0) (F.fin (1 / 2)))

attribute [local semireducible] Rat.mul Rat.add Rat.sub Rat.inv

deriving instance DecidableEq for Except

/-- Clamping never exceeds the upper bound when the bounds are ordered
(any value, NaN included: `FloatCore` min/max ignore a NaN operand). -/
theorem clamp_le_upper (l : Limits) (v : F) (h : F.ble l.lower l.upper = true) :
    F.ble (l.clamp v) l.upper = true := by
  obtain ⟨lo, up⟩ := l
  cases lo <;> cases up <;> cases v <;>
    simp_all [Limits.clamp, F.min, F.max, F.ble, F.blt] <;>
    (try split_ifs) <;> (try simp_all) <;> intros <;>
    first
    | linarith
    | (apply le_antisymm <;> linarith)

/-- Clamping never falls below the lower bound when the bounds are ordered. -/
theorem clamp_ge_lower (l : Limits) (v : F) (h : F.ble l.lower l.upper = true) :
    F.ble l.lower (l.clamp v) = true := by
  obtain ⟨lo, up⟩ := l
  cases lo <;> cases up <;> cases v <;>
    simp_all [Limits.clamp, F.min, F.max, F.ble, F.blt] <;>
    (try split_ifs) <;> (try simp_all) <;> intros <;>
    first
    | linarith
    | (apply le_antisymm <;> linarith)

/-- On ordered bounds and a non-NaN value, the code's
`val.min(upper).max(lower)` agrees with the spec's `min(upper, max(lower, val))`. -/
theorem clamp_minmax_form (l : Limits) (v : F) (h : F.ble l.lower l.upper = true)
    (hv : v ≠ F.nan) : l.clamp v = F.min l.upper (F.max l.lower v) := by
  obtain ⟨lo, up⟩ := l
  cases lo <;> cases up <;> cases v <;>
    simp_all [Limits.clamp, F.min, F.max, F.ble, F.blt] <;>
    (try split_ifs) <;> (try simp_all) <;> intros <;>
    first
    | linarith
    | (apply le_antisymm <;> linarith)

/-- Clamping a value already inside the range returns it unchanged. -/
theorem clamp_of_mem (l : Limits) (v : F) (h1 : F.ble l.lower v = true)
    (h2 : F.ble v l.upper = true) : l.clamp v = v := by
  obtain ⟨lo, up⟩ := l
  cases lo <;> cases up <;> cases v <;>
    simp_all [Limits.clamp, F.min, F.max, F.ble, F.blt] <;>
    (try split_ifs) <;> (try simp_all) <;> intros <;>
    first
    | linarith
    | (apply le_antisymm <;> linarith)

/-- Every integral output of a sequence of `KITerm::step` calls lies within
the term's (ordered) limits, no matter how many steps are taken. -/
theorem ki_outputs_mem (t : KITerm) (inputs : List (F × F))
    (h : F.ble t.limits.lower t.limits.upper = true) :
    ∀ v ∈ t.runOutputs inputs, F.ble t.limits.lower v = true ∧ F.ble v t.limits.upper = true := by
  induction inputs generalizing t with
  | nil => intro v hv; simp [KITerm.runOutputs] at hv
  | cons pr rest ih =>
    obtain ⟨o, td⟩ := pr
    intro v hv
    simp only [KITerm.runOutputs, List.mem_cons] at hv
    rcases hv with rfl | hv
    · exact ⟨clamp_ge_lower _ _ h, clamp_le_upper _ _ h⟩
    · exact ih (t.step o td).1 h v hv

/-- Claim C1: `PidCtrl::step` computes `offset = setpoint - input.measurement`,
feeds it to the proportional and integral term steps and the measurement and
tdelta to the derivative term step — each term stepped exactly once from the
pre-call state, so the fixed P, I, D order is observable in which state each
term reads — and returns an Output whose `p`, `i`, `d` fields are exactly
those three term outputs and whose `out` field is the overall Limits' clamp
of `p + i + d`; the operation is a total function (no error path). -/
theorem pidctrl_step_composition (c : PidCtrl) (input : PidIn) :
    ((c.step input).2.p = c.kp.step (F.sub c.setpoint input.measurement))
    ∧ ((c.step input).2.i = (c.ki.step (F.sub c.setpoint input.measurement) input.tdelta).2)
    ∧ ((c.step input).2.d = (c.kd.step input.measurement input.tdelta).2)
    ∧ ((c.step input).2.out
        = c.limits.clamp (F.add (F.add ((c.step input).2.p) ((c.step input).2.i)) ((c.step input).2.d)))
    ∧ ((c.step input).1
        = { c with ki := (c.ki.step (F.sub c.setpoint input.measurement) input.tdelta).1
                 , kd := (c.kd.step input.measurement input.tdelta).1 }) :=
  ⟨rfl, rfl, rfl, rfl, rfl⟩

/-- Claim C2: `KITerm::step` clamps `scale * offset * tdelta + accumulate`
against the term's Limits, stores the clamped result back into `accumulate`
and returns it (leaving limits and scale unchanged); consequently, when the
term's Limits are ordered, every integral output of every finite sequence of
steps lies in `[lower, upper]` — anti-windup. -/
theorem ki_anti_windup (t : KITerm) (inputs : List (F × F))
    (h : F.ble t.limits.lower t.limits.upper = true) :
    (∀ o td, (t.step o td).1.accumulate = (t.step o td).2
      ∧ (t.step o td).2 = t.limits.clamp (F.add (F.mul (F.mul t.scale o) td) t.accumulate)
      ∧ (t.step o td).1.limits = t.limits
      ∧ (t.step o td).1.scale = t.scale)
    ∧ ∀ v ∈ t.runOutputs inputs,
        F.ble t.limits.lower v = true ∧ F.ble v t.limits.upper = true :=
  ⟨fun _ _ => ⟨rfl, rfl, rfl, rfl⟩, ki_outputs_mem t inputs h⟩

/-- Claim C2 witness: a saturating offset driven for one step against limits
`[-2, 2]` yields the output 2, which lies within the limits. -/
theorem ki_anti_windup_witness :
    F.ble (F.fin (-2)) (F.fin 2) = true ∧ F.ble (F.fin 2) (F.fin 2) = true :=
  (ki_anti_windup ⟨⟨F.fin (-2), F.fin 2⟩, F.fin 1, F.fin 0⟩ [(F.fin 100, F.fin 1)]
    (by decide)).2 (F.fin 2) (by decide)

/-- Claim C3: on Limits with `lower <= upper` and a non-NaN value `v`,
`clamp(v)` equals `min(upper, max(lower, v))`, always lies in
`[lower, upper]`, and equals `v` whenever `v` is already inside the range. -/
theorem limits_clamp_spec (l : Limits) (v : F)
    (h : F.ble l.lower l.upper = true) (hv : v ≠ F.nan) :
    l.clamp v = F.min l.upper (F.max l.lower v)
    ∧ F.ble l.lower (l.clamp v) = true
    ∧ F.ble (l.clamp v) l.upper = true
    ∧ (F.ble l.lower v = true → F.ble v l.upper = true → l.clamp v = v) :=
  ⟨clamp_minmax_form l v h hv, clamp_ge_lower l v h, clamp_le_upper l v h,
   fun h1 h2 => clamp_of_mem l v h1 h2⟩

/-- Claim C3 witness: clamping 3 against `[-1, 5]` returns 3 unchanged. -/
theorem limits_clamp_spec_witness :
    Limits.clamp ⟨F.fin (-1), F.fin 5⟩ (F.fin 3) = F.fin 3 :=
  (limits_clamp_spec ⟨F.fin (-1), F.fin 5⟩ (F.fin 3) (by decide) (by decide)).2.2.2
    (by decide) (by decide)

/-- Claim C4: `try_set_upper(v)` succeeds and sets `upper = v` exactly when
`lower <= v`, and otherwise returns `LimitOutBound` producing no new state
(in this pure embedding a failed call hands the caller no updated Limits, so
the original value is untouched); `try_set_lower(v)` symmetrically succeeds
exactly when `v <= upper`. -/
theorem limits_try_set_spec (l : Limits) (v : F) :
    (F.ble l.lower v = true → l.try_set_upper v = Except.ok ⟨l.lower, v⟩)
    ∧ (F.ble l.lower v = false → l.try_set_upper v = Except.error PidError.LimitOutBound)
    ∧ (F.ble v l.upper = true → l.try_set_lower v = Except.ok ⟨v, l.upper⟩)
    ∧ (F.ble v l.upper = false → l.try_set_lower v = Except.error PidError.LimitOutBound) := by
  refine ⟨fun h1 => ?_, fun h2 => ?_, fun h3 => ?_, fun h4 => ?_⟩
  · simp [Limits.try_set_upper, h1]
  · simp [Limits.try_set_upper, h2]
  · simp [Limits.try_set_lower, F.bge, h3]
  · simp [Limits.try_set_lower, F.bge, h4]

/-- Claim C4 witness: on Limits `[0, 5]`, setting upper to 3 succeeds,
setting upper to -1 fails, setting lower to 4 succeeds, setting lower to 9
fails. -/
theorem limits_try_set_spec_witness :
    Limits.try_set_upper ⟨F.fin 0, F.fin 5⟩ (F.fin 3) = Except.ok ⟨F.fin 0, F.fin 3⟩
    ∧ Limits.try_set_upper ⟨F.fin 0, F.fin 5⟩ (F.fin (-1)) = Except.error PidError.LimitOutBound
    ∧ Limits.try_set_lower ⟨F.fin 0, F.fin 5⟩ (F.fin 4) = Except.ok ⟨F.fin 4, F.fin 5⟩
    ∧ Limits.try_set_lower ⟨F.fin 0, F.fin 5⟩ (F.fin 9) = Except.error PidError.LimitOutBound :=
  ⟨(limits_try_set_spec ⟨F.fin 0, F.fin 5⟩ (F.fin 3)).1 (by decide),
   (limits_try_set_spec ⟨F.fin 0, F.fin 5⟩ (F.fin (-1))).2.1 (by decide),
   (limits_try_set_spec ⟨F.fin 0, F.fin 5⟩ (F.fin 4)).2.2.1 (by decide),
   (limits_try_set_spec ⟨F.fin 0, F.fin 5⟩ (F.fin 9)).2.2.2 (by decide)⟩

/-- Claim C5: `PidIn::new(measurement, tdelta)` stores the measurement
unchanged and stores tdelta clamped into `[epsilon, +infinity]`: the stored
tdelta is always at least epsilon, every `tdelta <= 0` is floored up to
epsilon, and `tdelta = +infinity` is preserved.  (The structure exposes no
mutating operation, so an input is immutable once constructed.) -/
theorem pidin_new_spec (m td : F) :
    ((PidIn.new m td).measurement = m)
    ∧ (F.ble F.epsilon (PidIn.new m td).tdelta = true)
    ∧ (F.ble td (F.fin 0) = true → (PidIn.new m td).tdelta = F.epsilon)
    ∧ (td = F.posInf → (PidIn.new m td).tdelta = F.posInf) := by
  refine ⟨rfl, ?_, fun h0 => ?_, fun hinf => ?_⟩
  · cases td <;>
      simp_all [PidIn.new, F.min, F.max, F.ble, F.blt, F.infinity, F.epsilon] <;>
      split_ifs <;> simp_all <;> linarith
  · cases td with
    | nan => simp [F.ble] at h0
    | posInf => simp [F.ble] at h0
    | negInf => simp [PidIn.new, F.min, F.max, F.blt, F.infinity, F.epsilon]
    | fin a =>
      have ha : a ≤ 0 := by simpa [F.ble] using h0
      have hc : ¬ ((4503599627370496 : ℚ)⁻¹ < a) := by
        intro hlt
        have hp : (0 : ℚ) < (4503599627370496 : ℚ)⁻¹ := by norm_num
        linarith
      simp [PidIn.new, F.min, F.max, F.blt, F.infinity, F.epsilon, hc]
  · subst hinf
    simp [PidIn.new, F.min, F.max, F.ble, F.blt, F.infinity, F.epsilon]

/-- Claim C5 witness: a non-positive tdelta is floored to epsilon and an
infinite tdelta is preserved (measurement 7 stored unchanged). -/
theorem pidin_new_spec_witness :
    (PidIn.new (F.fin 7) (F.fin (-1))).tdelta = F.epsilon
    ∧ (PidIn.new (F.fin 7) F.posInf).tdelta = F.posInf
    ∧ (PidIn.new (F.fin 7) (F.fin (-1))).measurement = F.fin 7 :=
  ⟨(pidin_new_spec (F.fin 7) (F.fin (-1))).2.2.1 (by decide),
   (pidin_new_spec (F.fin 7) F.posInf).2.2.2 rfl,
   (pidin_new_spec (F.fin 7) (F.fin (-1))).1⟩

/-- Claim C6 counterexample: the claim fails as stated for a Limits
configuration that excludes 0.  With derivative limits `[1, 2]`, scale 1 and
tdelta 1, two consecutive steps with the same measurement 0 give a second
output of 1, not 0: the raw derivative 0 is clamped up to the lower bound. -/
theorem kd_zero_counterexample :
    (((⟨⟨F.fin 1, F.fin 2⟩, F.fin 1, F.fin 5⟩ : KDTerm).step (F.fin 0) (F.fin 1)).1.step
        (F.fin 0) (F.fin 1)).2 = F.fin 1
    ∧ (((⟨⟨F.fin 1, F.fin 2⟩, F.fin 1, F.fin 5⟩ : KDTerm).step (F.fin 0) (F.fin 1)).1.step
        (F.fin 0) (F.fin 1)).2 ≠ F.fin 0 := by
  decide

/-- Claim C6 (amended): when two consecutive derivative steps receive the
same finite measurement, the scale is finite, the second tdelta is neither
NaN nor zero, and the term's Limits contain 0 (`lower <= 0 <= upper`), the
second step's output is exactly 0. -/
theorem kd_same_measurement_zero (t : KDTerm) (s m : ℚ) (td1 td2 : F)
    (hs : t.scale = F.fin s)
    (hl : F.ble t.limits.lower (F.fin 0) = true)
    (hu : F.ble (F.fin 0) t.limits.upper = true)
    (h2n : td2 ≠ F.nan) (h2z : td2 ≠ F.fin 0) :
    ((t.step (F.fin m) td1).1.step (F.fin m) td2).2 = F.fin 0 := by
  obtain ⟨⟨lo, up⟩, sc, pm⟩ := t
  simp only at hs hl hu
  subst hs
  have h1 : (KDTerm.step ⟨⟨lo, up⟩, F.fin s, pm⟩ (F.fin m) td1).1
      = ⟨⟨lo, up⟩, F.fin s, F.fin m⟩ := rfl
  rw [h1]
  show Limits.clamp ⟨lo, up⟩ (F.div (F.mul (F.fin s) (F.sub (F.fin m) (F.fin m))) td2) = F.fin 0
  have h2 : F.sub (F.fin m) (F.fin m) = F.fin 0 := by simp [F.sub, F.neg, F.add]
  have h3 : F.mul (F.fin s) (F.fin 0) = F.fin 0 := by simp [F.mul]
  have h4 : F.div (F.fin 0) td2 = F.fin 0 := by
    cases td2 <;> simp_all [F.div]
  rw [h2, h3, h4]
  cases lo <;> cases up <;>
    simp_all [Limits.clamp, F.min, F.max, F.ble, F.blt] <;>
    (try split_ifs) <;> (try simp_all) <;> intros <;>
    first
    | linarith
    | (apply le_antisymm <;> linarith)

/-- Claim C6 (amended) witness: derivative limits `[-1, 1]` contain 0, scale
2, measurement 3 twice, tdelta 1: the second output is exactly 0. -/
theorem kd_same_measurement_zero_witness :
    (((⟨⟨F.fin (-1), F.fin 1⟩, F.fin 2, F.fin 7⟩ : KDTerm).step (F.fin 3) (F.fin 1)).1.step
        (F.fin 3) (F.fin 1)).2 = F.fin 0 :=
  kd_same_measurement_zero ⟨⟨F.fin (-1), F.fin 1⟩, F.fin 2, F.fin 7⟩ 2 3 (F.fin 1) (F.fin 1)
    rfl (by decide) (by decide) (by decide) (by decide)

/-- Claim C7: default Limits construction yields lower = negative infinity
and upper = positive infinity; `set_limit(v)` always succeeds, establishing
`lower = -|v|`, `upper = |v|`, which for non-NaN `v` satisfies
`lower <= upper`; and every successful `try_set_upper` / `try_set_lower`
call leaves a Limits satisfying `lower <= upper`. -/
theorem limits_invariant (l : Limits) (v : F) :
    Limits.new = ⟨F.neg_infinity, F.infinity⟩
    ∧ l.set_limit v = ⟨F.neg (F.abs v), F.abs v⟩
    ∧ (v ≠ F.nan → F.ble (l.set_limit v).lower (l.set_limit v).upper = true)
    ∧ (∀ l2, l.try_set_upper v = Except.ok l2 → F.ble l2.lower l2.upper = true)
    ∧ (∀ l2, l.try_set_lower v = Except.ok l2 → F.ble l2.lower l2.upper = true) := by
  refine ⟨rfl, rfl, fun hv => ?_, fun l2 h => ?_, fun l2 h => ?_⟩
  · cases v <;>
      simp_all [Limits.set_limit, F.neg, F.abs, F.ble]
  · rw [Limits.try_set_upper] at h
    split at h
    · cases h
      assumption
    · cases h
  · rw [Limits.try_set_lower] at h
    split at h
    · cases h
      assumption
    · cases h

/-- Claim C7 witness: `set_limit(-3)` on the default Limits yields ordered
bounds, and a successful `try_set_upper(4)` on `[0, 9]` yields ordered
bounds. -/
theorem limits_invariant_witness :
    F.ble (Limits.new.set_limit (F.fin (-3))).lower (Limits.new.set_limit (F.fin (-3))).upper = true
    ∧ F.ble (F.fin 0) (F.fin 4) = true :=
  ⟨(limits_invariant Limits.new (F.fin (-3))).2.2.1 (by decide),
   (limits_invariant ⟨F.fin 0, F.fin 9⟩ (F.fin 4)).2.2.2.1 ⟨F.fin 0, F.fin 4⟩ (by decide)⟩

/-- Claim C8: the end-to-end scenario of the repo example test, replayed in
the embedding.  Gains p=3, i=2, d=1, `init(5, 0)`, measurement held at 0:
the five steps (with the stated mutations between them) produce exactly the
five outputs of the claim, and `try_set_upper(28)` on the integral limits
succeeds with the expected new Limits. -/
theorem pidctrl_scenario :
    demo1.2 = PidOut.new (F.fin 15) (F.fin 10) (F.fin 0) (F.fin 25)
    ∧ demo2.2 = PidOut.new (F.fin 20) (F.fin 20) (F.fin 0) (F.fin 40)
    ∧ demo3.2 = PidOut.new (F.fin 10) (F.fin 30) (F.fin 0) (F.fin 40)
    ∧ demo4.2 = PidOut.new (F.fin 10) (F.fin 35) (F.fin 0) (F.fin 45)
    ∧ demo4.1.ki.limits.try_set_upper (F.fin 28)
        = Except.ok ⟨demo4.1.ki.limits.lower, F.fin 28⟩
    ∧ demo5.2 = PidOut.new (F.fin 10) (F.fin 28) (F.fin 0) (F.fin 38) := by
  decide

/-- Claim C9: `PidCtrl::step` mutates only the integral accumulator and the
derivative previous measurement: the setpoint, the overall Limits, the whole
proportional term, and the limits and scales of the integral and derivative
terms are unchanged by every step. -/
theorem pidctrl_step_frame (c : PidCtrl) (input : PidIn) :
    ((c.step input).1.setpoint = c.setpoint)
    ∧ ((c.step input).1.limits = c.limits)
    ∧ ((c.step input).1.kp = c.kp)
    ∧ ((c.step input).1.ki.limits = c.ki.limits)
    ∧ ((c.step input).1.ki.scale = c.ki.scale)
    ∧ ((c.step input).1.kd.limits = c.kd.limits)
    ∧ ((c.step input).1.kd.scale = c.kd.scale) :=
  ⟨rfl, rfl, rfl, rfl, rfl, rfl, rfl⟩

/-- Claim C10: `PidCtrl::init(setpoint, prev_measurement)` sets exactly the
setpoint and the derivative previous measurement, leaving the proportional
term, the entire integral term (accumulator included), the overall Limits,
and the derivative term's limits and scale untouched. -/
theorem pidctrl_init_frame (c : PidCtrl) (sp pm : F) :
    ((c.init sp pm).setpoint = sp)
    ∧ ((c.init sp pm).kd.prev_measurement = pm)
    ∧ ((c.init sp pm).kp = c.kp)
    ∧ ((c.init sp pm).ki = c.ki)
    ∧ ((c.init sp pm).limits = c.limits)
    ∧ ((c.init sp pm).kd.limits = c.kd.limits)
    ∧ ((c.init sp pm).kd.scale = c.kd.scale) :=
  ⟨rfl, rfl, rfl, rfl, rfl, rfl, rfl⟩

end Pid
